import Mathlib

/-!
Verification development for the PropClaw agent lifecycle and wallet
allocation engine (`src/server.ts`, which concatenates the Express server,
`db.ts`, the MCP client and `types.ts`).

Shallow embedding conventions:
* JavaScript numbers that hold money/ratios are modelled as `ℚ` (the code
  only adds, subtracts, multiplies and divides parsed decimal strings).
* `JS Math.round(x)` is modelled exactly as `⌊x + 1/2⌋` (ties go toward +∞).
* Fallible exchange reads are modelled as `Option`-valued oracle inputs to
  the handlers; a `none` models the underlying HTTP call throwing.
* The SQLite tables are modelled as lists; `INSERT OR REPLACE` deletes every
  row that collides on a unique column (`id` PRIMARY KEY,
  `hyperliquid_address` UNIQUE) and appends the new row, which is exactly
  SQLite's conflict-resolution behaviour.
-/

-- ─── Risk-gate constants (types.ts, RISK_GATES) ─────────────────────────────

structure RiskGates where
  MIN_TRADES : ℕ
  MIN_WINRATE : ℚ
  MIN_TOTAL_PNL : ℚ
  MAX_DRAWDOWN : ℚ
  MAX_DAILY_TRADES : ℕ
  DRAWDOWN_KILL : ℚ
  AGENT_PROFIT_SHARE : ℚ
  FIRM_PROFIT_SHARE : ℚ

def RISK_GATES : RiskGates :=
  { MIN_TRADES := 10
    MIN_WINRATE := 0.45
    MIN_TOTAL_PNL := -500
    MAX_DRAWDOWN := 0.15
    MAX_DAILY_TRADES := 50
    DRAWDOWN_KILL := 0.10
    AGENT_PROFIT_SHARE := 0.80
    FIRM_PROFIT_SHARE := 0.20 }

-- ─── JS rounding helpers ────────────────────────────────────────────────────

/-- `Math.round(q * 100) / 100` (two display decimals, server.ts line 79). -/
def jsRound2 (q : ℚ) : ℚ := ((⌊q * 100 + 1/2⌋ : ℤ) : ℚ) / 100

/-- `Math.round(q * 1000) / 1000` (three display decimals, server.ts lines 79-80). -/
def jsRound3 (q : ℚ) : ℚ := ((⌊q * 1000 + 1/2⌋ : ℤ) : ℚ) / 1000

-- ─── Performance Analyzer (server.ts, analyzePnL) ───────────────────────────

/--
One human-readable failure reason pushed by `analyzePnL`.  The code builds
formatted strings; the model keeps the raw numbers each string interpolates,
one constructor per template.
-/
inductive GateReason where
  | insufficientTrades (count min : ℕ)
  | winRateBelow (rate min : ℚ)
  | pnlBelow (pnl min : ℚ)
  | drawdownAbove (dd max : ℚ)
deriving DecidableEq, Repr

/-- The object returned by `analyzePnL` (server.ts lines 58-59 and 79-81). -/
structure AnalysisResult where
  total_pnl : ℚ
  win_rate : ℚ
  max_drawdown : ℚ
  total_trades : ℕ
  passes : Bool
  reasons : List GateReason
deriving DecidableEq, Repr

/-- Loop state of the fill iteration in `analyzePnL` (server.ts line 62). -/
structure PnlAcc where
  totalPnl : ℚ
  wins : ℕ
  peak : ℚ
  maxDrawdown : ℚ
  runningPnl : ℚ
deriving DecidableEq, Repr

def pnlInit : PnlAcc := { totalPnl := 0, wins := 0, peak := 0, maxDrawdown := 0, runningPnl := 0 }

/-- Body of `for (const fill of fills)` in `analyzePnL` (server.ts lines 63-71). -/
def pnlStep (s : PnlAcc) (pnl : ℚ) : PnlAcc :=
  let runningPnl := s.runningPnl + pnl
  let totalPnl := s.totalPnl + pnl
  let wins := if 0 < pnl then s.wins + 1 else s.wins
  let peak := if s.peak < runningPnl then runningPnl else s.peak
  let dd := if 0 < peak then (peak - runningPnl) / peak else 0
  let maxDrawdown := if s.maxDrawdown < dd then dd else s.maxDrawdown
  { totalPnl := totalPnl, wins := wins, peak := peak,
    maxDrawdown := maxDrawdown, runningPnl := runningPnl }

/-- The folded loop state for a fill history (each fill is its parsed `closedPnl`). -/
def rawAcc (fills : List ℚ) : PnlAcc := fills.foldl pnlStep pnlInit

/-- `wins / fills.length` as computed on server.ts line 73. -/
def rawWinRate (fills : List ℚ) : ℚ := ((rawAcc fills).wins : ℚ) / (fills.length : ℚ)

/--
`analyzePnL` (server.ts lines 54-82), with the fill history already fetched:
the HTTP fetch is the caller's oracle, the analysis itself is pure.
-/
def analyzePnL (fills : List ℚ) : AnalysisResult :=
  if fills.length < RISK_GATES.MIN_TRADES then
    { total_pnl := 0, win_rate := 0, max_drawdown := 0, total_trades := fills.length,
      passes := false,
      reasons := [.insufficientTrades fills.length RISK_GATES.MIN_TRADES] }
  else
    let s := rawAcc fills
    let winRate := rawWinRate fills
    let reasons : List GateReason :=
      (if winRate < RISK_GATES.MIN_WINRATE then [.winRateBelow winRate RISK_GATES.MIN_WINRATE] else [])
      ++ (if s.totalPnl < RISK_GATES.MIN_TOTAL_PNL then [.pnlBelow s.totalPnl RISK_GATES.MIN_TOTAL_PNL] else [])
      ++ (if RISK_GATES.MAX_DRAWDOWN < s.maxDrawdown then [.drawdownAbove s.maxDrawdown RISK_GATES.MAX_DRAWDOWN] else [])
    { total_pnl := jsRound2 s.totalPnl, win_rate := jsRound3 winRate,
      max_drawdown := jsRound3 s.maxDrawdown, total_trades := fills.length,
      passes := reasons.length == 0, reasons := reasons }

-- ─── Agents, wallets, database state (types.ts + db.ts) ─────────────────────

inductive AgentStatus where
  | active
  | revoked
deriving DecidableEq, Repr

/-- The in-memory `Agent` interface (types.ts lines 1019-1030). -/
structure Agent where
  id : String
  hl_address : String
  funded_wallet_address : String
  initial_capital : ℚ
  current_pnl : ℚ
  agent_profit : ℚ
  firm_profit : ℚ
  status : AgentStatus
  trade_count : ℕ
  created_at : String
deriving DecidableEq, Repr

/--
A funded-wallet row.  Only the fields the modelled logic reads are kept:
the signing credential never influences any guarded decision.
-/
structure FundedWallet where
  address : String
  assigned_to : Option String
deriving DecidableEq, Repr

/-- The SQLite database: the `agents` and `funded_wallets` tables, in rowid order. -/
structure DB where
  agents : List Agent
  wallets : List FundedWallet
deriving DecidableEq, Repr

/-- `SELECT * FROM agents WHERE id = ?` (db.ts, getAgent). -/
def getAgent (db : DB) (id : String) : Option Agent :=
  db.agents.find? (fun a => a.id == id)

/-- `SELECT * FROM agents WHERE hyperliquid_address = ?` (db.ts). -/
def getAgentByHyperliquidAddress (db : DB) (address : String) : Option Agent :=
  db.agents.find? (fun a => a.hl_address == address)

/--
`INSERT OR REPLACE INTO agents ...` (db.ts, saveAgent): SQLite deletes every
row colliding on `id` (PRIMARY KEY) or `hyperliquid_address` (UNIQUE), then
inserts the new row at the end.
-/
def saveAgent (db : DB) (agent : Agent) : DB :=
  { db with agents :=
      db.agents.filter (fun x => !(x.id == agent.id) && !(x.hl_address == agent.hl_address))
        ++ [agent] }

/-- `SELECT * FROM funded_wallets WHERE assigned_to IS NULL LIMIT 1` (db.ts). -/
def getAvailableWallet (db : DB) : Option FundedWallet :=
  db.wallets.find? (fun w => w.assigned_to == none)

/-- `SELECT * FROM funded_wallets WHERE assigned_to = ?` (db.ts). -/
def getWalletForAgent (db : DB) (agentId : String) : Option FundedWallet :=
  db.wallets.find? (fun w => w.assigned_to == some agentId)

/-- `UPDATE funded_wallets SET assigned_to = ? WHERE address = ?` (db.ts). -/
def assignWallet (db : DB) (walletAddress : String) (agentId : String) : DB :=
  { db with wallets :=
      db.wallets.map (fun w =>
        if w.address == walletAddress then { w with assigned_to := some agentId } else w) }

-- ─── Balance fetch (server.ts, getBalance) ──────────────────────────────────

/-- The fields `getBalance` reads from `clearinghouseState` (server.ts lines 92-94). -/
structure PerpsSummary where
  accountValue : ℚ
  totalMarginUsed : ℚ
  withdrawable : ℚ
deriving DecidableEq, Repr

/--
Oracle input for one `getBalance` call: `perps = none` models the
`clearinghouseState` HTTP call throwing, `spotUsdc = none` models
`spotClearinghouseState` throwing, and `spotUsdc = some none` models a
response with no USDC entry.
-/
structure BalanceFetch where
  perps : Option PerpsSummary
  spotUsdc : Option (Option ℚ)
deriving DecidableEq, Repr

structure Balance where
  accountValue : ℚ
  totalMarginUsed : ℚ
  withdrawable : ℚ
deriving DecidableEq, Repr

/--
`getBalance` (server.ts lines 84-110).  Each sub-fetch is wrapped in its own
`try { } catch (e) {}`, so a failure leaves the corresponding component at
its initial value 0 and `getBalance` itself never throws — which makes the
`catch` blocks around its call sites (server.ts lines 200 and 280)
unreachable.
-/
def getBalance (f : BalanceFetch) : Balance :=
  let perpsValue := match f.perps with | some s => s.accountValue | none => 0
  let totalMarginUsed := match f.perps with | some s => s.totalMarginUsed | none => 0
  let withdrawable := match f.perps with | some s => s.withdrawable | none => 0
  let spotValue := match f.spotUsdc with | some (some v) => v | _ => 0
  { accountValue := perpsValue + spotValue,
    totalMarginUsed := totalMarginUsed,
    withdrawable := withdrawable }

-- ─── Profit split (server.ts lines 352-370) ─────────────────────────────────

/-- The `profit_split` object attached to an executed trade's response. -/
structure ProfitSplit where
  closed_pnl : ℚ
  agent_share : ℚ
  firm_share : ℚ
deriving DecidableEq, Repr

/--
The profit-split update applied to the agent for the latest settled fill
(server.ts lines 358-368): positive `closedPnl` is split 80/20 and added to
cumulative PnL, negative `closedPnl` only moves cumulative PnL, zero is a
no-op.
-/
def applyProfitSplit (agent : Agent) (closedPnl : ℚ) : Agent × Option ProfitSplit :=
  if 0 < closedPnl then
    let agentShare := closedPnl * RISK_GATES.AGENT_PROFIT_SHARE
    let firmShare := closedPnl * RISK_GATES.FIRM_PROFIT_SHARE
    ({ agent with
        agent_profit := agent.agent_profit + agentShare,
        firm_profit := agent.firm_profit + firmShare,
        current_pnl := agent.current_pnl + closedPnl },
     some { closed_pnl := closedPnl, agent_share := agentShare, firm_share := firmShare })
  else if closedPnl < 0 then
    ({ agent with current_pnl := agent.current_pnl + closedPnl }, none)
  else
    (agent, none)

/-- Fold `applyProfitSplit` over a sequence of settled `closedPnl` values. -/
def applyFills (agent : Agent) (pnls : List ℚ) : Agent :=
  pnls.foldl (fun a p => (applyProfitSplit a p).1) agent

-- ─── Trade gate (server.ts, POST /trade) ────────────────────────────────────

inductive TradeOutcome where
  | notFound
  | revokedDenied
  | rateLimited
  | noWallet
  | drawdownRevoked (drawdown : ℚ)
  | serverError
  | coinNotFound
  | executed (split : Option ProfitSplit)
deriving DecidableEq, Repr

/--
The `POST /trade` handler (server.ts lines 237-389), with the external
exchange interactions abstracted as oracle inputs:
* `bf` feeds `getBalance` for the drawdown check;
* `metaOk = false` models `infoClient.meta()` throwing (caught by the outer
  `catch`, a 500 with no state change);
* `coinFound = false` models the coin-index lookup failing (a 400);
* `orderOk = false` models `exchangeClient.order` throwing (outer catch,
  500, so `trade_count++` is never persisted);
* `latestFill = none` models the post-trade `userFills` call throwing
  (swallowed, trade still saved), `some none` an empty fill list, and
  `some (some p)` a latest fill with parsed `closedPnl` `p`.
The leverage update (lines 295-307) has no effect on any modelled state.
-/
def tradeHandler (db : DB) (agentId : String) (bf : BalanceFetch)
    (metaOk : Bool) (coinFound : Bool) (orderOk : Bool)
    (latestFill : Option (Option ℚ)) : DB × TradeOutcome :=
  match getAgent db agentId with
  | none => (db, .notFound)
  | some agent =>
    if agent.status = AgentStatus.revoked then (db, .revokedDenied)
    else if RISK_GATES.MAX_DAILY_TRADES ≤ agent.trade_count then (db, .rateLimited)
    else
      match getWalletForAgent db agent.id with
      | none => (db, .noWallet)
      | some _wallet =>
        let bal := getBalance bf
        let drawdown :=
          if 0 < agent.initial_capital then
            (agent.initial_capital - bal.accountValue) / agent.initial_capital
          else 0
        if RISK_GATES.DRAWDOWN_KILL ≤ drawdown then
          (saveAgent db { agent with status := AgentStatus.revoked }, .drawdownRevoked drawdown)
        else if !metaOk then (db, .serverError)
        else if !coinFound then (db, .coinNotFound)
        else if !orderOk then (db, .serverError)
        else
          let agent1 := { agent with trade_count := agent.trade_count + 1 }
          match latestFill with
          | some (some closedPnl) =>
            (saveAgent db (applyProfitSplit agent1 closedPnl).1,
             .executed (applyProfitSplit agent1 closedPnl).2)
          | _ => (saveAgent db agent1, .executed none)

-- ─── Onboarding (server.ts, POST /evaluate) ─────────────────────────────────

inductive EvalOutcome where
  | alreadyRegistered (agent : Agent)
  | invalidSignature
  | rejected (metrics : AnalysisResult)
  | noCapacity
  | approved (agent : Agent) (metrics : AnalysisResult)
  | approvedBypass (agent : Agent) (metrics : AnalysisResult)
deriving DecidableEq, Repr

inductive EvalPhase1Result where
  | early (outcome : EvalOutcome)
  | proceed (wallet : FundedWallet) (metrics : AnalysisResult)
deriving DecidableEq, Repr

/--
First synchronous span of the `POST /evaluate` handler (server.ts lines
155-193): registration check, signature verification (pre-verified boolean
oracle `sigValid`), PnL analysis over the fetched `fills`, and the
`getAvailableWallet` selection.  It ends exactly at the `await
getBalance(wallet.address)` on line 198 — the next synchronous span is
`evalPhase2`.  No database mutation happens in this phase.
-/
def evalPhase1 (db : DB) (addr : String) (sigValid : Bool) (fills : List ℚ)
    (bypassPnl : Bool) : EvalPhase1Result :=
  match getAgentByHyperliquidAddress db addr with
  | some existingAgent => .early (.alreadyRegistered existingAgent)
  | none =>
    if !sigValid then .early .invalidSignature
    else
      let metrics := analyzePnL fills
      if !metrics.passes && !bypassPnl then .early (.rejected metrics)
      else
        match getAvailableWallet db with
        | none => .early .noCapacity
        | some wallet => .proceed wallet metrics

/--
Second synchronous span of `POST /evaluate` (server.ts lines 196-224),
resumed after the `await getBalance` of line 198 delivered `bf`: snapshot
`initialCapital`, build the agent, `assignWallet`, `saveAgent`, respond.
-/
def evalPhase2 (db : DB) (wallet : FundedWallet) (metrics : AnalysisResult)
    (addr : String) (newId : String) (bf : BalanceFetch) (ts : String) : DB × EvalOutcome :=
  let initialCapital := (getBalance bf).accountValue
  let agent : Agent :=
    { id := newId, hl_address := addr, funded_wallet_address := wallet.address,
      initial_capital := initialCapital, current_pnl := 0, agent_profit := 0,
      firm_profit := 0, status := .active, trade_count := 0, created_at := ts }
  let db1 := assignWallet db wallet.address agent.id
  let db2 := saveAgent db1 agent
  (db2, if metrics.passes then .approved agent metrics else .approvedBypass agent metrics)

/--
The whole `POST /evaluate` handler as executed without interleaving: phase 1
followed immediately by phase 2.  `newId` is the generated `randomUUID()`,
`ts` the creation timestamp.
-/
def evaluateHandler (db : DB) (addr : String) (sigValid : Bool) (fills : List ℚ)
    (bypassPnl : Bool) (newId : String) (bf : BalanceFetch) (ts : String) : DB × EvalOutcome :=
  match evalPhase1 db addr sigValid fills bypassPnl with
  | .early o => (db, o)
  | .proceed wallet metrics => evalPhase2 db wallet metrics addr newId bf ts

-- ─── Derived notions used by the claims ─────────────────────────────────────

/-- The agent found for `id` exists and is revoked. -/
def isRevoked (db : DB) (id : String) : Bool :=
  match getAgent db id with
  | some a => a.status == AgentStatus.revoked
  | none => false

/-- Key uniqueness that the SQLite schema enforces on the `agents` table. -/
def AgentKeysDistinct (x y : Agent) : Prop :=
  x.id ≠ y.id ∧ x.hl_address ≠ y.hl_address

instance : DecidableRel AgentKeysDistinct := fun x y =>
  inferInstanceAs (Decidable (x.id ≠ y.id ∧ x.hl_address ≠ y.hl_address))

/-- The database respects the `agents` table's PRIMARY KEY and UNIQUE constraints. -/
def DBWF (db : DB) : Prop :=
  db.agents.Pairwise AgentKeysDistinct

instance (db : DB) : Decidable (DBWF db) :=
  List.instDecidablePairwise db.agents

/-- One `POST /trade` request together with its oracle inputs. -/
structure TradeCall where
  agentId : String
  bf : BalanceFetch
  metaOk : Bool
  coinFound : Bool
  orderOk : Bool
  latestFill : Option (Option ℚ)
deriving DecidableEq, Repr

/-- Run a sequence of trade requests, threading the database. -/
def runTrades (db : DB) (calls : List TradeCall) : DB :=
  calls.foldl
    (fun d c => (tradeHandler d c.agentId c.bf c.metaOk c.coinFound c.orderOk c.latestFill).1)
    db

-- ─── Persisted agent rows (db.ts, agents table schema) ──────────────────────

/--
One row of the `agents` table exactly as declared by the schema (db.ts lines
594-604): there is no `initial_capital` and no `created_at` column.
-/
structure AgentRow where
  id : String
  hyperliquid_address : String
  funded_wallet_address : String
  current_pnl : ℚ
  firm_profit : ℚ
  agent_profit : ℚ
  trade_count : ℕ
  status : AgentStatus
deriving DecidableEq, Repr

/-- The column/value binding of `saveAgent`'s INSERT (db.ts lines 637-645). -/
def agentToRow (agent : Agent) : AgentRow :=
  { id := agent.id, hyperliquid_address := agent.hl_address,
    funded_wallet_address := agent.funded_wallet_address,
    current_pnl := agent.current_pnl, firm_profit := agent.firm_profit,
    agent_profit := agent.agent_profit, trade_count := agent.trade_count,
    status := agent.status }

/-- `saveAgent` at the row level: `INSERT OR REPLACE` into the `agents` table. -/
def rowSaveAgent (table : List AgentRow) (agent : Agent) : List AgentRow :=
  table.filter
      (fun r => !(r.id == agent.id) && !(r.hyperliquid_address == agent.hl_address))
    ++ [agentToRow agent]

/-- `getAgent` at the row level: `SELECT * FROM agents WHERE id = ?`. -/
def rowGetAgent (table : List AgentRow) (id : String) : Option AgentRow :=
  table.find? (fun r => r.id == id)

-- ─── Concrete fixtures used by witnesses and counterexamples ────────────────

/-- An onboarded agent with a positive drawdown baseline. -/
def A0 : Agent :=
  { id := "a1", hl_address := "h1", funded_wallet_address := "w1",
    initial_capital := 100, current_pnl := 0, agent_profit := 0, firm_profit := 0,
    status := .active, trade_count := 0, created_at := "t0" }

/-- The wallet bound to `A0`. -/
def W0 : FundedWallet := { address := "w1", assigned_to := some "a1" }

/-- A database holding `A0` and its wallet. -/
def db0 : DB := { agents := [A0], wallets := [W0] }

/-- A database where `A0` has already been revoked. -/
def dbRevoked : DB := { agents := [{ A0 with status := .revoked }], wallets := [W0] }

/-- A database with no agents and a single free wallet. -/
def dbFree : DB := { agents := [], wallets := [{ address := "w1", assigned_to := none }] }

/-- A database with no agents and no wallets at all. -/
def dbEmpty : DB := { agents := [], wallets := [] }

/-- A balance fetch where both exchange reads throw. -/
def bfFail : BalanceFetch := { perps := none, spotUsdc := none }

/-- A benign trade request against `A0` with all exchange calls succeeding. -/
def callOk : TradeCall :=
  { agentId := "a1", bf := { perps := some ⟨100, 0, 100⟩, spotUsdc := some none },
    metaOk := true, coinFound := true, orderOk := true, latestFill := some none }

/-- Ten fills whose running PnL peaks at 10 and then falls to -5. -/
def ddCexFills : List ℚ := [10, -15, 0, 0, 0, 0, 0, 0, 0, 0]

/-- The agent created by the witness onboarding below. -/
def createdA : Agent :=
  { id := "idA", hl_address := "h1", funded_wallet_address := "w1", initial_capital := 0,
    current_pnl := 0, agent_profit := 0, firm_profit := 0, status := .active,
    trade_count := 0, created_at := "t1" }

/-- Ten winning fills of +1 each. -/
def winFills : List ℚ := [1, 1, 1, 1, 1, 1, 1, 1, 1, 1]

-- ─── Performance Analyzer lemmas ────────────────────────────────────────────

theorem foldl_pnlStep_totalPnl (l : List ℚ) (s : PnlAcc) :
    (l.foldl pnlStep s).totalPnl = s.totalPnl + l.sum := by
  induction l generalizing s with
  | nil => simp
  | cons p t ih =>
    rw [List.foldl_cons, ih]
    simp only [pnlStep, List.sum_cons]
    ring

theorem foldl_pnlStep_wins (l : List ℚ) (s : PnlAcc) :
    (l.foldl pnlStep s).wins = s.wins + l.countP (fun p => decide (0 < p)) := by
  induction l generalizing s with
  | nil => simp
  | cons p t ih =>
    rw [List.foldl_cons, ih]
    by_cases h : 0 < p <;>
      simp [pnlStep, h, List.countP_cons] <;> omega


theorem pnlStep_runningPnl (s : PnlAcc) (p : ℚ) :
    (pnlStep s p).runningPnl = s.runningPnl + p := rfl

theorem pnlStep_peak (s : PnlAcc) (p : ℚ) :
    (pnlStep s p).peak =
      if s.peak < s.runningPnl + p then s.runningPnl + p else s.peak := rfl

theorem pnlStep_maxDrawdown (s : PnlAcc) (p : ℚ) :
    (pnlStep s p).maxDrawdown =
      if s.maxDrawdown <
          (if 0 < (pnlStep s p).peak
           then ((pnlStep s p).peak - (s.runningPnl + p)) / (pnlStep s p).peak
           else 0)
      then
        (if 0 < (pnlStep s p).peak
         then ((pnlStep s p).peak - (s.runningPnl + p)) / (pnlStep s p).peak
         else 0)
      else s.maxDrawdown := rfl

/-- One loop step preserves: drawdown so far nonnegative, peak dominating the
running PnL, peak never below its initial value 0. -/
theorem pnlStep_inv (s : PnlAcc) (p : ℚ)
    (h1 : 0 ≤ s.maxDrawdown) (h2 : s.runningPnl ≤ s.peak) (h3 : 0 ≤ s.peak) :
    0 ≤ (pnlStep s p).maxDrawdown
    ∧ (pnlStep s p).runningPnl ≤ (pnlStep s p).peak
    ∧ 0 ≤ (pnlStep s p).peak := by
  have hrp : (pnlStep s p).runningPnl ≤ (pnlStep s p).peak := by
    rw [pnlStep_runningPnl, pnlStep_peak]
    split_ifs with h
    · exact le_refl _
    · exact le_of_not_lt h
  have hpk : 0 ≤ (pnlStep s p).peak := by
    rw [pnlStep_peak]
    split_ifs with h
    · linarith
    · exact h3
  refine ⟨?_, hrp, hpk⟩
  rw [pnlStep_maxDrawdown]
  set d := (if 0 < (pnlStep s p).peak
      then ((pnlStep s p).peak - (s.runningPnl + p)) / (pnlStep s p).peak else 0) with hdef
  have hd : 0 ≤ d := by
    rw [hdef]
    split_ifs with hpos
    · refine div_nonneg ?_ (le_of_lt hpos)
      have hx := hrp
      rw [pnlStep_runningPnl] at hx
      linarith
    · exact le_refl _
  split_ifs with h
  · exact hd
  · exact h1

theorem foldl_pnlStep_inv (l : List ℚ) (s : PnlAcc)
    (h1 : 0 ≤ s.maxDrawdown) (h2 : s.runningPnl ≤ s.peak) (h3 : 0 ≤ s.peak) :
    0 ≤ (l.foldl pnlStep s).maxDrawdown
    ∧ (l.foldl pnlStep s).runningPnl ≤ (l.foldl pnlStep s).peak
    ∧ 0 ≤ (l.foldl pnlStep s).peak := by
  induction l generalizing s with
  | nil => exact ⟨h1, h2, h3⟩
  | cons p t ih =>
    rw [List.foldl_cons]
    obtain ⟨a, b, c⟩ := pnlStep_inv s p h1 h2 h3
    exact ih (pnlStep s p) a b c

/-- If every fill is non-positive the peak stays at 0 and no drawdown is recorded. -/
theorem foldl_pnlStep_nonpos (l : List ℚ) (s : PnlAcc)
    (hl : ∀ p ∈ l, p ≤ 0) (h1 : s.runningPnl ≤ 0) (h2 : s.peak = 0) (h3 : s.maxDrawdown = 0) :
    (l.foldl pnlStep s).maxDrawdown = 0 := by
  induction l generalizing s with
  | nil => exact h3
  | cons p t ih =>
    rw [List.foldl_cons]
    have hp : p ≤ 0 := hl p (List.mem_cons_self p t)
    have hr : (pnlStep s p).runningPnl ≤ 0 := by
      rw [pnlStep_runningPnl]; linarith
    have hpk : (pnlStep s p).peak = 0 := by
      rw [pnlStep_peak, h2, if_neg (by linarith)]
    have hmd : (pnlStep s p).maxDrawdown = 0 := by
      rw [pnlStep_maxDrawdown, hpk]
      simp [h3]
    exact ih (pnlStep s p) (fun q hq => hl q (List.mem_cons_of_mem p hq)) hr hpk hmd

/-- If every prefix of the remaining fills keeps the running PnL nonnegative,
the recorded drawdown never exceeds 1. -/
theorem foldl_pnlStep_le_one (l : List ℚ) (s : PnlAcc)
    (hpre : ∀ n : ℕ, 0 ≤ s.runningPnl + (l.take (n + 1)).sum)
    (h1 : s.maxDrawdown ≤ 1) (h2 : s.runningPnl ≤ s.peak) (h3 : 0 ≤ s.peak) :
    (l.foldl pnlStep s).maxDrawdown ≤ 1 := by
  induction l generalizing s with
  | nil => exact h1
  | cons p t ih =>
    rw [List.foldl_cons]
    have hr0 : 0 ≤ s.runningPnl + p := by
      have hx := hpre 0
      simpa using hx
    have hrp : (pnlStep s p).runningPnl ≤ (pnlStep s p).peak := by
      rw [pnlStep_runningPnl, pnlStep_peak]
      split_ifs with h
      · exact le_refl _
      · exact le_of_not_lt h
    have hpk : 0 ≤ (pnlStep s p).peak := by
      rw [pnlStep_peak]
      split_ifs with h
      · linarith
      · exact h3
    have hmd : (pnlStep s p).maxDrawdown ≤ 1 := by
      rw [pnlStep_maxDrawdown]
      set d := (if 0 < (pnlStep s p).peak
          then ((pnlStep s p).peak - (s.runningPnl + p)) / (pnlStep s p).peak else 0) with hdef
      have hd : d ≤ 1 := by
        rw [hdef]
        split_ifs with hpos
        · rw [div_le_one hpos]
          linarith
        · norm_num
      split_ifs with h
      · exact hd
      · exact h1
    apply ih (pnlStep s p) ?_ hmd hrp hpk
    intro n
    have hx := hpre (n + 1)
    rw [pnlStep_runningPnl]
    simp only [List.take_succ_cons, List.sum_cons] at hx
    linarith

theorem jsRound3_nonneg {q : ℚ} (h : 0 ≤ q) : 0 ≤ jsRound3 q := by
  unfold jsRound3
  have hf : (0 : ℤ) ≤ ⌊q * 1000 + 1/2⌋ := by
    apply Int.le_floor.mpr
    push_cast
    linarith
  have hq : (0 : ℚ) ≤ ((⌊q * 1000 + 1/2⌋ : ℤ) : ℚ) := by exact_mod_cast hf
  linarith

theorem jsRound3_le_one {q : ℚ} (h : q ≤ 1) : jsRound3 q ≤ 1 := by
  unfold jsRound3
  have hmono : ⌊q * 1000 + 1/2⌋ ≤ ⌊(1000 : ℚ) + 1/2⌋ :=
    Int.floor_le_floor (by linarith)
  have hval : ⌊(1000 : ℚ) + 1/2⌋ = (1000 : ℤ) := by
    rw [Int.floor_eq_iff]
    constructor <;> norm_num
  have hf : ⌊q * 1000 + 1/2⌋ ≤ (1000 : ℤ) := by omega
  have hq : ((⌊q * 1000 + 1/2⌋ : ℤ) : ℚ) ≤ 1000 := by exact_mod_cast hf
  linarith

-- ─── Claim C4 ───────────────────────────────────────────────────────────────

/--
Claim C4: for every fill history of length at least `MIN_TRADES`, the
analyzer passes exactly when the unrounded win rate, total PnL and max
drawdown clear their gates; each violated gate contributes exactly one
reason, the reasons list is empty iff the verdict passes (the gates are
checked independently, not short-circuited); the verdict is computed on the
unrounded loop metrics while the returned display values are rounded.
-/
theorem analyzePnL_gate_conjunction (fills : List ℚ)
    (h : RISK_GATES.MIN_TRADES ≤ fills.length) :
    ((analyzePnL fills).passes = true ↔
      (RISK_GATES.MIN_WINRATE ≤ rawWinRate fills
        ∧ RISK_GATES.MIN_TOTAL_PNL ≤ (rawAcc fills).totalPnl
        ∧ (rawAcc fills).maxDrawdown ≤ RISK_GATES.MAX_DRAWDOWN))
    ∧ ((analyzePnL fills).reasons = [] ↔ (analyzePnL fills).passes = true)
    ∧ (analyzePnL fills).reasons.length =
        ((if rawWinRate fills < RISK_GATES.MIN_WINRATE then 1 else 0)
          + (if (rawAcc fills).totalPnl < RISK_GATES.MIN_TOTAL_PNL then 1 else 0)
          + (if RISK_GATES.MAX_DRAWDOWN < (rawAcc fills).maxDrawdown then 1 else 0))
    ∧ (rawAcc fills).totalPnl = fills.sum
    ∧ (rawAcc fills).wins = fills.countP (fun p => decide (0 < p))
    ∧ (analyzePnL fills).total_pnl = jsRound2 (rawAcc fills).totalPnl
    ∧ (analyzePnL fills).win_rate = jsRound3 (rawWinRate fills)
    ∧ (analyzePnL fills).max_drawdown = jsRound3 (rawAcc fills).maxDrawdown
    ∧ (analyzePnL fills).total_trades = fills.length := by
  have hnl : ¬ (fills.length < RISK_GATES.MIN_TRADES) := Nat.not_lt.mpr h
  have htot : (rawAcc fills).totalPnl = fills.sum := by
    rw [rawAcc, foldl_pnlStep_totalPnl]
    simp [pnlInit]
  have hwins : (rawAcc fills).wins = fills.countP (fun p => decide (0 < p)) := by
    rw [rawAcc, foldl_pnlStep_wins]
    simp [pnlInit]
  have hcalc : analyzePnL fills =
      { total_pnl := jsRound2 (rawAcc fills).totalPnl,
        win_rate := jsRound3 (rawWinRate fills),
        max_drawdown := jsRound3 (rawAcc fills).maxDrawdown,
        total_trades := fills.length,
        passes :=
          ((if rawWinRate fills < RISK_GATES.MIN_WINRATE
              then [GateReason.winRateBelow (rawWinRate fills) RISK_GATES.MIN_WINRATE] else [])
            ++ (if (rawAcc fills).totalPnl < RISK_GATES.MIN_TOTAL_PNL
              then [GateReason.pnlBelow (rawAcc fills).totalPnl RISK_GATES.MIN_TOTAL_PNL] else [])
            ++ (if RISK_GATES.MAX_DRAWDOWN < (rawAcc fills).maxDrawdown
              then [GateReason.drawdownAbove (rawAcc fills).maxDrawdown RISK_GATES.MAX_DRAWDOWN] else [])).length == 0,
        reasons :=
          (if rawWinRate fills < RISK_GATES.MIN_WINRATE
              then [GateReason.winRateBelow (rawWinRate fills) RISK_GATES.MIN_WINRATE] else [])
            ++ (if (rawAcc fills).totalPnl < RISK_GATES.MIN_TOTAL_PNL
              then [GateReason.pnlBelow (rawAcc fills).totalPnl RISK_GATES.MIN_TOTAL_PNL] else [])
            ++ (if RISK_GATES.MAX_DRAWDOWN < (rawAcc fills).maxDrawdown
              then [GateReason.drawdownAbove (rawAcc fills).maxDrawdown RISK_GATES.MAX_DRAWDOWN] else []) } := by
    unfold analyzePnL
    rw [if_neg hnl]
  refine ⟨?_, ?_, ?_, htot, hwins, ?_, ?_, ?_, ?_⟩ <;> rw [hcalc]
  · simp only [← not_lt]
    by_cases h1 : rawWinRate fills < RISK_GATES.MIN_WINRATE <;>
      by_cases h2 : (rawAcc fills).totalPnl < RISK_GATES.MIN_TOTAL_PNL <;>
        by_cases h3 : RISK_GATES.MAX_DRAWDOWN < (rawAcc fills).maxDrawdown <;>
          simp [h1, h2, h3]
  · by_cases h1 : rawWinRate fills < RISK_GATES.MIN_WINRATE <;>
      by_cases h2 : (rawAcc fills).totalPnl < RISK_GATES.MIN_TOTAL_PNL <;>
        by_cases h3 : RISK_GATES.MAX_DRAWDOWN < (rawAcc fills).maxDrawdown <;>
          simp [h1, h2, h3]
  · by_cases h1 : rawWinRate fills < RISK_GATES.MIN_WINRATE <;>
      by_cases h2 : (rawAcc fills).totalPnl < RISK_GATES.MIN_TOTAL_PNL <;>
        by_cases h3 : RISK_GATES.MAX_DRAWDOWN < (rawAcc fills).maxDrawdown <;>
          simp [h1, h2, h3]

/--
Claim C4 witness: ten winning fills of +1 clear every gate, so the analyzer
passes with an empty reasons list.
-/
theorem analyzePnL_gate_conjunction_witness :
    (analyzePnL winFills).passes = true ∧ (analyzePnL winFills).reasons = [] := by
  have hthm := analyzePnL_gate_conjunction winFills (by decide)
  have hpass : (analyzePnL winFills).passes = true := by
    apply hthm.1.mpr
    refine ⟨?_, ?_, ?_⟩ <;>
      norm_num [rawWinRate, rawAcc, winFills, pnlStep, pnlInit, RISK_GATES]
  exact ⟨hpass, hthm.2.1.mpr hpass⟩

-- ─── Claim C5 ───────────────────────────────────────────────────────────────

theorem analyzePnL_short_eq (fills : List ℚ) (h : fills.length < RISK_GATES.MIN_TRADES) :
    analyzePnL fills =
      { total_pnl := 0, win_rate := 0, max_drawdown := 0, total_trades := fills.length,
        passes := false,
        reasons := [.insufficientTrades fills.length RISK_GATES.MIN_TRADES] } := by
  unfold analyzePnL
  rw [if_pos h]

/--
Claim C5 (amended): for every fill history shorter than `MIN_TRADES`
(including the empty one) the analyzer returns `passes = false` with a
single insufficient-trades reason and does not crash; however the returned
total PnL, win rate and max drawdown are the constants 0 — they are NOT
computed on the too-small sample — and only `total_trades` reflects it.
-/
theorem analyzePnL_insufficient_trades (fills : List ℚ)
    (h : fills.length < RISK_GATES.MIN_TRADES) :
    (analyzePnL fills).passes = false
    ∧ (analyzePnL fills).reasons = [.insufficientTrades fills.length RISK_GATES.MIN_TRADES]
    ∧ (analyzePnL fills).total_pnl = 0
    ∧ (analyzePnL fills).win_rate = 0
    ∧ (analyzePnL fills).max_drawdown = 0
    ∧ (analyzePnL fills).total_trades = fills.length := by
  rw [analyzePnL_short_eq fills h]
  exact ⟨rfl, rfl, rfl, rfl, rfl, rfl⟩

/-- Claim C5 witness: the empty fill history. -/
theorem analyzePnL_insufficient_trades_witness :
    (analyzePnL ([] : List ℚ)).passes = false
    ∧ (analyzePnL ([] : List ℚ)).reasons = [.insufficientTrades 0 RISK_GATES.MIN_TRADES]
    ∧ (analyzePnL ([] : List ℚ)).total_pnl = 0
    ∧ (analyzePnL ([] : List ℚ)).win_rate = 0
    ∧ (analyzePnL ([] : List ℚ)).max_drawdown = 0
    ∧ (analyzePnL ([] : List ℚ)).total_trades = 0 :=
  analyzePnL_insufficient_trades [] (by decide)

/--
Claim C5 counterexample to the claim as stated: for the single fill `[+1]`
the claim asserts total PnL, win rate and max drawdown are "still computed
on the too-small sample", but the code returns the constants 0: the sample's
total PnL is 1 and its win rate is 1, not 0.
-/
theorem analyzePnL_small_sample_zeroed_cex :
    (analyzePnL [(1 : ℚ)]).passes = false
    ∧ (analyzePnL [(1 : ℚ)]).total_pnl = 0
    ∧ [(1 : ℚ)].sum = 1
    ∧ (analyzePnL [(1 : ℚ)]).total_pnl ≠ [(1 : ℚ)].sum
    ∧ (analyzePnL [(1 : ℚ)]).win_rate = 0
    ∧ rawWinRate [(1 : ℚ)] = 1 := by
  norm_num [analyzePnL, rawWinRate, rawAcc, pnlStep, pnlInit, RISK_GATES]

-- ─── Claim C6 ───────────────────────────────────────────────────────────────

theorem analyzePnL_long_maxdd (fills : List ℚ)
    (h : ¬ fills.length < RISK_GATES.MIN_TRADES) :
    (analyzePnL fills).max_drawdown = jsRound3 (rawAcc fills).maxDrawdown := by
  unfold analyzePnL
  rw [if_neg h]

/--
Claim C6 (amended): the computed max drawdown is always nonnegative; it is 0
whenever every fill is non-positive (the running PnL never rises above its
initial value, so the peak stays 0); and it is at most 1 whenever every
running-PnL prefix sum stays nonnegative.  (The claim's original bound
`maxDrawdown ≤ 1` under the mere existence of one positive running-PnL point
is false — see the counterexample — because the running PnL can fall below
zero after a positive peak, making `(peak - runningPnl) / peak` exceed 1.)
-/
theorem analyzePnL_drawdown_bounds (fills : List ℚ) :
    0 ≤ (analyzePnL fills).max_drawdown
    ∧ ((∀ p ∈ fills, p ≤ 0) → (analyzePnL fills).max_drawdown = 0)
    ∧ ((∀ n : ℕ, 0 ≤ (fills.take n).sum) → (analyzePnL fills).max_drawdown ≤ 1) := by
  have hz : jsRound3 0 = 0 := by norm_num [jsRound3]
  by_cases hlen : fills.length < RISK_GATES.MIN_TRADES
  · rw [analyzePnL_short_eq fills hlen]
    refine ⟨le_refl _, fun _ => rfl, fun _ => ?_⟩
    norm_num
  · rw [analyzePnL_long_maxdd fills hlen]
    refine ⟨?_, ?_, ?_⟩
    · apply jsRound3_nonneg
      have := foldl_pnlStep_inv fills pnlInit (by simp [pnlInit]) (by simp [pnlInit]) (by simp [pnlInit])
      exact this.1
    · intro hnp
      have hmd : (rawAcc fills).maxDrawdown = 0 :=
        foldl_pnlStep_nonpos fills pnlInit hnp (by simp [pnlInit]) (by simp [pnlInit]) (by simp [pnlInit])
      rw [rawAcc] at hmd
      rw [rawAcc, hmd, hz]
    · intro hpre
      apply jsRound3_le_one
      apply foldl_pnlStep_le_one fills pnlInit ?_ (by simp [pnlInit]) (by simp [pnlInit]) (by simp [pnlInit])
      intro n
      have := hpre (n + 1)
      simpa [pnlInit] using this

/-- Claim C6 witness: the singleton non-positive history `[0]` satisfies all
three hypotheses at once. -/
theorem analyzePnL_drawdown_bounds_witness :
    0 ≤ (analyzePnL [(0 : ℚ)]).max_drawdown
    ∧ (analyzePnL [(0 : ℚ)]).max_drawdown = 0
    ∧ (analyzePnL [(0 : ℚ)]).max_drawdown ≤ 1 :=
  ⟨(analyzePnL_drawdown_bounds [(0 : ℚ)]).1,
   (analyzePnL_drawdown_bounds [(0 : ℚ)]).2.1 (by decide),
   (analyzePnL_drawdown_bounds [(0 : ℚ)]).2.2 (by
      intro n
      cases n <;> simp)⟩

/--
Claim C6 counterexample to the claim as stated: the ten-fill history
`[10, -15, 0, …]` has a positive running-PnL point (the first prefix sum is
10) yet its computed max drawdown is 3/2, outside `[0, 1]`.
-/
theorem analyzePnL_drawdown_above_one_cex :
    (analyzePnL ddCexFills).max_drawdown = 3/2
    ∧ ¬ (analyzePnL ddCexFills).max_drawdown ≤ 1
    ∧ 0 < (ddCexFills.take 1).sum := by
  norm_num [analyzePnL, ddCexFills, rawAcc, rawWinRate, pnlStep, pnlInit, jsRound3, jsRound2,
    RISK_GATES]

-- ─── Generic find?/filter lemmas for INSERT OR REPLACE reasoning ────────────

theorem find?_filter_append_self {α : Type} (p q : α → Bool) (l : List α) (a : α)
    (hpa : p a = true) (himp : ∀ x, q x = true → p x = false) :
    ((l.filter q) ++ [a]).find? p = some a := by
  induction l with
  | nil => simp [List.find?, hpa]
  | cons x t ih =>
    by_cases hq : q x = true
    · rw [List.filter_cons_of_pos hq, List.cons_append, List.find?_cons, himp x hq]
      exact ih
    · rw [List.filter_cons_of_neg (by simpa using hq)]
      exact ih

theorem find?_filter_append_of_found {α : Type} (p q : α → Bool) (l : List α) (a b : α)
    (hfind : l.find? p = some b) (hqb : q b = true) :
    ((l.filter q) ++ [a]).find? p = some b := by
  induction l with
  | nil => simp at hfind
  | cons x t ih =>
    by_cases hpx : p x = true
    · have hb : b = x := by
        rw [List.find?_cons, hpx] at hfind
        exact (Option.some_inj.mp hfind).symm
      subst hb
      rw [List.filter_cons_of_pos hqb, List.cons_append, List.find?_cons, hpx]
    · have hrest : t.find? p = some b := by
        rw [List.find?_cons, Bool.eq_false_iff.mpr hpx] at hfind
        exact hfind
      by_cases hq : q x = true
      · rw [List.filter_cons_of_pos hq, List.cons_append, List.find?_cons,
          Bool.eq_false_iff.mpr hpx]
        exact ih hrest
      · rw [List.filter_cons_of_neg (by simpa using hq)]
        exact ih hrest

-- ─── Agent-store lemmas ─────────────────────────────────────────────────────

theorem getAgent_id (db : DB) (id : String) (a : Agent) (h : getAgent db id = some a) :
    a.id = id := by
  have hp := List.find?_some h
  simpa using hp

theorem getAgent_mem (db : DB) (id : String) (a : Agent) (h : getAgent db id = some a) :
    a ∈ db.agents :=
  List.mem_of_find?_eq_some h

theorem getAgentByAddr_addr (db : DB) (addr : String) (a : Agent)
    (h : getAgentByHyperliquidAddress db addr = some a) : a.hl_address = addr := by
  have hp := List.find?_some h
  simpa using hp

theorem getAgentByAddr_mem (db : DB) (addr : String) (a : Agent)
    (h : getAgentByHyperliquidAddress db addr = some a) : a ∈ db.agents :=
  List.mem_of_find?_eq_some h

/-- After `saveAgent db s`, looking the id `s.id` up finds exactly `s`. -/
theorem getAgent_saveAgent_self (db : DB) (s : Agent) :
    getAgent (saveAgent db s) s.id = some s := by
  apply find?_filter_append_self
  · simp
  · intro x hx
    simp only [Bool.and_eq_true, Bool.not_eq_true'] at hx
    simpa using hx.1

/-- After `saveAgent db s`, looking up `s.hl_address` by address finds exactly `s`. -/
theorem getAgentByAddr_saveAgent_self (db : DB) (s : Agent) :
    getAgentByHyperliquidAddress (saveAgent db s) s.hl_address = some s := by
  apply find?_filter_append_self
  · simp
  · intro x hx
    simp only [Bool.and_eq_true, Bool.not_eq_true'] at hx
    simpa using hx.2

/-- A row that collides with the saved agent on neither key survives
`saveAgent` and is still the row its id resolves to. -/
theorem getAgent_saveAgent_of_ne (db : DB) (s : Agent) (id : String) (b : Agent)
    (hfind : getAgent db id = some b) (h1 : b.id ≠ s.id) (h2 : b.hl_address ≠ s.hl_address) :
    getAgent (saveAgent db s) id = some b := by
  apply find?_filter_append_of_found _ _ _ _ _ hfind
  simp only [Bool.and_eq_true, Bool.not_eq_true']
  exact ⟨by simpa using h1, by simpa using h2⟩

theorem assignWallet_agents (db : DB) (w : String) (aid : String) :
    (assignWallet db w aid).agents = db.agents := rfl

theorem saveAgent_wallets (db : DB) (a : Agent) :
    (saveAgent db a).wallets = db.wallets := rfl

/-- The schema's key constraints survive `saveAgent`. -/
theorem DBWF_saveAgent (db : DB) (s : Agent) (h : DBWF db) : DBWF (saveAgent db s) := by
  unfold DBWF saveAgent
  rw [List.pairwise_append]
  refine ⟨List.Pairwise.sublist (List.filter_sublist _) h, by simp, ?_⟩
  intro x hx y hy
  rw [List.mem_filter] at hx
  rw [List.mem_singleton] at hy
  subst hy
  have hk := hx.2
  simp only [Bool.and_eq_true, Bool.not_eq_true'] at hk
  exact ⟨by simpa using hk.1, by simpa using hk.2⟩

theorem DBWF_assignWallet (db : DB) (w aid : String) (h : DBWF db) :
    DBWF (assignWallet db w aid) := h

/-- Distinct ids force distinct addresses in a well-formed store. -/
theorem DBWF_distinct_addr (db : DB) (h : DBWF db) {x y : Agent}
    (hx : x ∈ db.agents) (hy : y ∈ db.agents) (hid : x.id ≠ y.id) :
    x.hl_address ≠ y.hl_address := by
  have hsym : Symmetric AgentKeysDistinct := by
    intro u v huv
    exact ⟨huv.1.symm, huv.2.symm⟩
  have hxy : x ≠ y := by
    intro e
    exact hid (by rw [e])
  exact (List.Pairwise.forall hsym h hx hy hxy).2

-- ─── Trade-gate lemmas ──────────────────────────────────────────────────────

theorem applyProfitSplit_id (a : Agent) (p : ℚ) : (applyProfitSplit a p).1.id = a.id := by
  unfold applyProfitSplit
  split_ifs <;> rfl

theorem applyProfitSplit_hl (a : Agent) (p : ℚ) :
    (applyProfitSplit a p).1.hl_address = a.hl_address := by
  unfold applyProfitSplit
  split_ifs <;> rfl

theorem tradeHandler_none (db : DB) (aid : String) (bf : BalanceFetch)
    (mo cf oo : Bool) (lf : Option (Option ℚ)) (h : getAgent db aid = none) :
    tradeHandler db aid bf mo cf oo lf = (db, .notFound) := by
  simp only [tradeHandler, h]

/-- Claim C1 helper: a revoked agent is denied with no state change, whatever
the balance oracle reports. -/
theorem tradeHandler_revoked_denied (db : DB) (aid : String) (a : Agent)
    (bf : BalanceFetch) (mo cf oo : Bool) (lf : Option (Option ℚ))
    (h : getAgent db aid = some a) (hs : a.status = .revoked) :
    tradeHandler db aid bf mo cf oo lf = (db, .revokedDenied) := by
  simp only [tradeHandler, h]
  rw [if_pos hs]

/-- Claim C1 helper: the drawdown kill-switch branch, fully evaluated. -/
theorem tradeHandler_kill (db : DB) (aid : String) (a : Agent) (w : FundedWallet)
    (bf : BalanceFetch) (mo cf oo : Bool) (lf : Option (Option ℚ))
    (h : getAgent db aid = some a) (hs : a.status = .active)
    (hq : a.trade_count < RISK_GATES.MAX_DAILY_TRADES)
    (hw : getWalletForAgent db a.id = some w)
    (hcap : 0 < a.initial_capital)
    (hdd : RISK_GATES.DRAWDOWN_KILL ≤
      (a.initial_capital - (getBalance bf).accountValue) / a.initial_capital) :
    tradeHandler db aid bf mo cf oo lf =
      (saveAgent db { a with status := .revoked },
       .drawdownRevoked ((a.initial_capital - (getBalance bf).accountValue) / a.initial_capital)) := by
  simp only [tradeHandler, h, hw]
  rw [if_neg (by rw [hs]; exact fun hcon => AgentStatus.noConfusion hcon),
    if_neg (Nat.not_le.mpr hq)]
  rw [if_pos hcap, if_pos hdd]

/-- Any single `POST /trade` request leaves a revoked agent revoked and keeps
the store well-formed: no trade-gate branch ever writes `status = active`
over a revoked record. -/
theorem tradeHandler_preserves_revoked (db : DB) (c : TradeCall) (id : String)
    (hwf : DBWF db) (hrev : isRevoked db id = true) :
    isRevoked (tradeHandler db c.agentId c.bf c.metaOk c.coinFound c.orderOk c.latestFill).1 id
      = true
    ∧ DBWF (tradeHandler db c.agentId c.bf c.metaOk c.coinFound c.orderOk c.latestFill).1 := by
  obtain ⟨a, hga, hast⟩ : ∃ a, getAgent db id = some a ∧ a.status = .revoked := by
    unfold isRevoked at hrev
    cases hga : getAgent db id with
    | none => rw [hga] at hrev; simp at hrev
    | some a =>
      rw [hga] at hrev
      simp only [beq_iff_eq] at hrev
      exact ⟨a, rfl, hrev⟩
  cases hgb : getAgent db c.agentId with
  | none =>
    rw [tradeHandler_none db c.agentId c.bf c.metaOk c.coinFound c.orderOk c.latestFill hgb]
    exact ⟨hrev, hwf⟩
  | some b =>
    by_cases hbs : b.status = .revoked
    · rw [tradeHandler_revoked_denied db c.agentId b c.bf c.metaOk c.coinFound c.orderOk
        c.latestFill hgb hbs]
      exact ⟨hrev, hwf⟩
    · by_cases hne : c.agentId = id
      · subst hne
        rw [hga] at hgb
        injection hgb with e
        subst e
        exact absurd hast hbs
      · have hbid : b.id = c.agentId := getAgent_id db c.agentId b hgb
        have haid : a.id = id := getAgent_id db id a hga
        have hidne : a.id ≠ b.id := by
          rw [haid, hbid]
          exact fun e => hne e.symm
        have haddr : a.hl_address ≠ b.hl_address :=
          DBWF_distinct_addr db hwf (getAgent_mem db id a hga) (getAgent_mem db c.agentId b hgb)
            hidne
        have hsur : ∀ s : Agent, s.id = b.id → s.hl_address = b.hl_address →
            isRevoked (saveAgent db s) id = true ∧ DBWF (saveAgent db s) := by
          intro s hs1 hs2
          have hkeep : getAgent (saveAgent db s) id = some a := by
            apply getAgent_saveAgent_of_ne db s id a hga
            · rw [hs1]
              exact hidne
            · rw [hs2]
              exact haddr
          constructor
          · unfold isRevoked
            rw [hkeep]
            simp [hast]
          · exact DBWF_saveAgent db s hwf
        cases hgw : getWalletForAgent db b.id with
        | none =>
          simp only [tradeHandler, hgb, hgw]
          rw [if_neg hbs]
          split_ifs <;> exact ⟨hrev, hwf⟩
        | some w =>
          simp only [tradeHandler, hgb, hgw]
          rw [if_neg hbs]
          rcases hlf : c.latestFill with _ | ⟨_ | p⟩ <;>
            split_ifs <;>
              first
                | exact ⟨hrev, hwf⟩
                | exact hsur _ rfl rfl
                | exact hsur _ (by rw [applyProfitSplit_id]) (by rw [applyProfitSplit_hl])

/-- Revocation is sticky across any sequence of trade requests. -/
theorem runTrades_preserves_revoked (calls : List TradeCall) (db : DB) (id : String)
    (hwf : DBWF db) (hrev : isRevoked db id = true) :
    isRevoked (runTrades db calls) id = true ∧ DBWF (runTrades db calls) := by
  induction calls generalizing db with
  | nil => exact ⟨hrev, hwf⟩
  | cons c rest ih =>
    have hstep := tradeHandler_preserves_revoked db c id hwf hrev
    exact ih _ hstep.2 hstep.1

/-- `POST /evaluate` never un-revokes an agent either: it mutates the agents
table only by inserting a fresh record under a fresh id and an address that
had no agent. -/
theorem evaluateHandler_preserves_revoked (db : DB) (addr : String) (sigValid : Bool)
    (fills : List ℚ) (bypassPnl : Bool) (newId : String) (bf : BalanceFetch) (ts : String)
    (id : String) (hrev : isRevoked db id = true) (hfresh : newId ≠ id) :
    isRevoked (evaluateHandler db addr sigValid fills bypassPnl newId bf ts).1 id = true := by
  obtain ⟨a, hga, hast⟩ : ∃ a, getAgent db id = some a ∧ a.status = .revoked := by
    unfold isRevoked at hrev
    cases hga : getAgent db id with
    | none => rw [hga] at hrev; simp at hrev
    | some a =>
      rw [hga] at hrev
      simp only [beq_iff_eq] at hrev
      exact ⟨a, rfl, hrev⟩
  unfold evaluateHandler
  cases hp : evalPhase1 db addr sigValid fills bypassPnl with
  | early o => exact hrev
  | proceed w m =>
    have hnone : getAgentByHyperliquidAddress db addr = none := by
      unfold evalPhase1 at hp
      cases hx : getAgentByHyperliquidAddress db addr with
      | none => rfl
      | some e => rw [hx] at hp; exact EvalPhase1Result.noConfusion hp
    have haddr : a.hl_address ≠ addr := by
      intro he
      have := List.find?_eq_none.mp hnone a (getAgent_mem db id a hga)
      simp [he] at this
    have haid : a.id = id := getAgent_id db id a hga
    unfold evalPhase2
    have hkeep :
        getAgent
          (saveAgent (assignWallet db w.address newId)
            { id := newId, hl_address := addr, funded_wallet_address := w.address,
              initial_capital := (getBalance bf).accountValue, current_pnl := 0,
              agent_profit := 0, firm_profit := 0, status := .active, trade_count := 0,
              created_at := ts }) id = some a := by
      apply getAgent_saveAgent_of_ne
      · rw [show getAgent (assignWallet db w.address newId) id = getAgent db id from rfl]
        exact hga
      · rw [haid]
        exact fun e => hfresh e.symm
      · exact haddr
    unfold isRevoked
    rw [hkeep]
    simp [hast]

theorem isRevoked_elim (db : DB) (id : String) (h : isRevoked db id = true) :
    ∃ a, getAgent db id = some a ∧ a.status = .revoked := by
  unfold isRevoked at h
  cases hga : getAgent db id with
  | none => rw [hga] at h; simp at h
  | some a =>
    rw [hga] at h
    simp only [beq_iff_eq] at h
    exact ⟨a, rfl, h⟩

-- ─── Claim C1 ───────────────────────────────────────────────────────────────

/--
Claim C1: (i) when the trade gate reaches the drawdown check for an active,
under-quota agent with a positive `initial_capital` and observes
`drawdown ≥ DRAWDOWN_KILL`, that same call persists `status = revoked` and
denies with the drawdown value attached; (ii) a revoked agent is denied with
no state change whatever the balance oracle says; (iii) after any sequence
of further trade requests (any agents, any balances) the agent is still
revoked and a trade request for it is still denied — revocation is sticky;
(iv) onboarding (the only other mutator) never reverses a revocation, given
that the generated UUID is fresh.
-/
theorem trade_gate_kill_switch :
    (∀ (db : DB) (aid : String) (a : Agent) (w : FundedWallet) (bf : BalanceFetch)
        (mo cf oo : Bool) (lf : Option (Option ℚ)),
      getAgent db aid = some a → a.status = .active →
      a.trade_count < RISK_GATES.MAX_DAILY_TRADES →
      getWalletForAgent db a.id = some w → 0 < a.initial_capital →
      RISK_GATES.DRAWDOWN_KILL ≤
        (a.initial_capital - (getBalance bf).accountValue) / a.initial_capital →
      tradeHandler db aid bf mo cf oo lf =
        (saveAgent db { a with status := .revoked },
         .drawdownRevoked
           ((a.initial_capital - (getBalance bf).accountValue) / a.initial_capital))
      ∧ isRevoked (saveAgent db { a with status := .revoked }) aid = true)
    ∧ (∀ (db : DB) (aid : String) (a : Agent) (bf : BalanceFetch) (mo cf oo : Bool)
        (lf : Option (Option ℚ)),
      getAgent db aid = some a → a.status = .revoked →
      tradeHandler db aid bf mo cf oo lf = (db, .revokedDenied))
    ∧ (∀ (db : DB) (id : String) (calls : List TradeCall) (bf : BalanceFetch)
        (mo cf oo : Bool) (lf : Option (Option ℚ)),
      DBWF db → isRevoked db id = true →
      isRevoked (runTrades db calls) id = true
      ∧ (tradeHandler (runTrades db calls) id bf mo cf oo lf).2 = .revokedDenied)
    ∧ (∀ (db : DB) (addr : String) (sig : Bool) (fills : List ℚ) (byp : Bool)
        (newId : String) (bf : BalanceFetch) (ts : String) (id : String),
      isRevoked db id = true → newId ≠ id →
      isRevoked (evaluateHandler db addr sig fills byp newId bf ts).1 id = true) := by
  refine ⟨?_, ?_, ?_, ?_⟩
  · intro db aid a w bf mo cf oo lf hga hact hq hw hcap hdd
    refine ⟨tradeHandler_kill db aid a w bf mo cf oo lf hga hact hq hw hcap hdd, ?_⟩
    have haid : a.id = aid := getAgent_id db aid a hga
    have hself := getAgent_saveAgent_self db { a with status := .revoked }
    unfold isRevoked
    rw [haid] at hself
    rw [haid, hself]
    simp
  · intro db aid a bf mo cf oo lf hga hs
    exact tradeHandler_revoked_denied db aid a bf mo cf oo lf hga hs
  · intro db id calls bf mo cf oo lf hwf hrev
    have h := runTrades_preserves_revoked calls db id hwf hrev
    refine ⟨h.1, ?_⟩
    obtain ⟨a, hga, hast⟩ := isRevoked_elim _ _ h.1
    rw [tradeHandler_revoked_denied _ id a bf mo cf oo lf hga hast]
  · intro db addr sig fills byp newId bf ts id hrev hfresh
    exact evaluateHandler_preserves_revoked db addr sig fills byp newId bf ts id hrev hfresh

/--
Claim C1 witness: an active agent with capital 100 whose wallet reads back a
zero balance is revoked, denied and stays denied; a pre-revoked agent stays
revoked through a benign trade and through a fresh onboarding.
-/
theorem trade_gate_kill_switch_witness :
    (tradeHandler db0 "a1" bfFail true true true none =
        (saveAgent db0 { A0 with status := .revoked },
         .drawdownRevoked
           ((A0.initial_capital - (getBalance bfFail).accountValue) / A0.initial_capital))
      ∧ isRevoked (saveAgent db0 { A0 with status := .revoked }) "a1" = true)
    ∧ tradeHandler dbRevoked "a1" bfFail true true true none = (dbRevoked, .revokedDenied)
    ∧ (isRevoked (runTrades dbRevoked [callOk]) "a1" = true
       ∧ (tradeHandler (runTrades dbRevoked [callOk]) "a1" bfFail true true true none).2 =
          .revokedDenied)
    ∧ isRevoked (evaluateHandler dbRevoked "h2" true [] true "idB" bfFail "t2").1 "a1" = true := by
  have hga : getAgent db0 "a1" = some A0 := by
    simp [getAgent, db0, A0, List.find?]
  have hgw : getWalletForAgent db0 A0.id = some W0 := by
    simp [getWalletForAgent, db0, A0, W0, List.find?]
  have hgr : getAgent dbRevoked "a1" = some { A0 with status := .revoked } := by
    simp [getAgent, dbRevoked, A0, List.find?]
  have hrev : isRevoked dbRevoked "a1" = true := by
    unfold isRevoked
    rw [hgr]
    simp
  have hwf : DBWF dbRevoked := by
    simp [DBWF, dbRevoked]
  refine ⟨trade_gate_kill_switch.1 db0 "a1" A0 W0 bfFail true true true none hga rfl
      (by norm_num [A0, RISK_GATES]) hgw (by norm_num [A0])
      (by norm_num [A0, getBalance, bfFail, RISK_GATES]),
    trade_gate_kill_switch.2.1 dbRevoked "a1" { A0 with status := .revoked } bfFail true true
      true none hgr rfl,
    trade_gate_kill_switch.2.2.1 dbRevoked "a1" [callOk] bfFail true true true none hwf hrev,
    trade_gate_kill_switch.2.2.2 dbRevoked "h2" true [] true "idB" bfFail "t2" "a1" hrev
      (by decide)⟩

-- ─── Claim C2 ───────────────────────────────────────────────────────────────

/--
Claim C2 evaluated at its failing input: for the active, under-quota agent
`A0` with `initial_capital = 100`, a trade-gate call in which BOTH balance
sub-fetches fail does NOT proceed fail-open — `getBalance` swallows the
errors (server.ts lines 90-103) and reports `accountValue = 0`, so the gate
computes drawdown `(100 - 0) / 100 = 1 ≥ DRAWDOWN_KILL`, revokes the agent
and denies the trade.  The `catch` at server.ts line 280 that the fail-open
comment refers to is unreachable because `getBalance` never throws.
-/
theorem trade_gate_balance_failure_revokes :
    getBalance bfFail = { accountValue := 0, totalMarginUsed := 0, withdrawable := 0 }
    ∧ tradeHandler db0 "a1" bfFail true true true none =
        (saveAgent db0 { A0 with status := .revoked }, .drawdownRevoked 1)
    ∧ isRevoked (tradeHandler db0 "a1" bfFail true true true none).1 "a1" = true := by
  have hga : getAgent db0 "a1" = some A0 := by
    simp [getAgent, db0, A0, List.find?]
  have hgw : getWalletForAgent db0 A0.id = some W0 := by
    simp [getWalletForAgent, db0, A0, W0, List.find?]
  have hbal : getBalance bfFail =
      { accountValue := 0, totalMarginUsed := 0, withdrawable := 0 } := by
    norm_num [getBalance, bfFail]
  have hdd : (A0.initial_capital - (getBalance bfFail).accountValue) / A0.initial_capital = 1 := by
    rw [hbal]
    norm_num [A0]
  have hkill := tradeHandler_kill db0 "a1" A0 W0 bfFail true true true none hga rfl
    (by norm_num [A0, RISK_GATES]) hgw (by norm_num [A0])
    (by rw [hdd]; norm_num [RISK_GATES])
  rw [hdd] at hkill
  refine ⟨hbal, hkill, ?_⟩
  rw [hkill]
  have hself := getAgent_saveAgent_self db0 { A0 with status := .revoked }
  unfold isRevoked
  rw [show ({ A0 with status := .revoked } : Agent).id = "a1" from rfl] at hself
  rw [hself]
  simp

-- ─── Onboarding lemmas ──────────────────────────────────────────────────────

/-- Claim C3 helper: an already-registered address short-circuits the whole
handler — the existing agent is returned verbatim, the state is untouched,
and the result does not depend on the signature, fills or bypass flag. -/
theorem evaluateHandler_already (db : DB) (addr : String) (a : Agent) (sig : Bool)
    (fills : List ℚ) (byp : Bool) (newId : String) (bf : BalanceFetch) (ts : String)
    (h : getAgentByHyperliquidAddress db addr = some a) :
    evaluateHandler db addr sig fills byp newId bf ts = (db, .alreadyRegistered a) := by
  simp only [evaluateHandler, evalPhase1, h]

/-- The early outcomes of phase 1 are never `approved`/`approvedBypass`. -/
theorem evalPhase1_early_shape (db : DB) (addr : String) (sig : Bool) (fills : List ℚ)
    (byp : Bool) (o : EvalOutcome)
    (h : evalPhase1 db addr sig fills byp = .early o) :
    ∀ (a : Agent) (m : AnalysisResult), o ≠ .approved a m ∧ o ≠ .approvedBypass a m := by
  unfold evalPhase1 at h
  cases hx : getAgentByHyperliquidAddress db addr with
  | some e =>
    rw [hx] at h
    injection h with he
    subst he
    intro a m
    exact ⟨fun hc => EvalOutcome.noConfusion hc, fun hc => EvalOutcome.noConfusion hc⟩
  | none =>
    rw [hx] at h
    by_cases hs : sig
    · rw [if_neg (by simp [hs])] at h
      by_cases hg : (!(analyzePnL fills).passes && !byp) = true
      · rw [if_pos hg] at h
        injection h with he
        subst he
        intro a m
        exact ⟨fun hc => EvalOutcome.noConfusion hc, fun hc => EvalOutcome.noConfusion hc⟩
      · rw [if_neg hg] at h
        cases hw : getAvailableWallet db with
        | none =>
          rw [hw] at h
          injection h with he
          subst he
          intro a m
          exact ⟨fun hc => EvalOutcome.noConfusion hc, fun hc => EvalOutcome.noConfusion hc⟩
        | some w =>
          rw [hw] at h
          exact EvalPhase1Result.noConfusion h
    · rw [if_pos (by simp [hs])] at h
      injection h with he
      subst he
      intro a m
      exact ⟨fun hc => EvalOutcome.noConfusion hc, fun hc => EvalOutcome.noConfusion hc⟩

/-- Phase 1 only proceeds when the address is unregistered. -/
theorem evalPhase1_proceed_none (db : DB) (addr : String) (sig : Bool) (fills : List ℚ)
    (byp : Bool) (w : FundedWallet) (m : AnalysisResult)
    (h : evalPhase1 db addr sig fills byp = .proceed w m) :
    getAgentByHyperliquidAddress db addr = none := by
  unfold evalPhase1 at h
  cases hx : getAgentByHyperliquidAddress db addr with
  | none => rfl
  | some e =>
    rw [hx] at h
    exact EvalPhase1Result.noConfusion h

/-- Claim C3 helper: a successful onboarding persists exactly one agent for
the address, namely the returned one. -/
theorem evaluateHandler_created (db : DB) (addr : String) (sig : Bool) (fills : List ℚ)
    (byp : Bool) (newId : String) (bf : BalanceFetch) (ts : String) (a : Agent)
    (m : AnalysisResult)
    (h : (evaluateHandler db addr sig fills byp newId bf ts).2 = .approved a m
       ∨ (evaluateHandler db addr sig fills byp newId bf ts).2 = .approvedBypass a m) :
    getAgentByHyperliquidAddress (evaluateHandler db addr sig fills byp newId bf ts).1 addr
      = some a
    ∧ a.hl_address = addr
    ∧ ((evaluateHandler db addr sig fills byp newId bf ts).1.agents.filter
        (fun x => x.hl_address == addr)).length = 1 := by
  cases hp : evalPhase1 db addr sig fills byp with
  | early o =>
    exfalso
    have hshape := evalPhase1_early_shape db addr sig fills byp o hp
    have h2 : (evaluateHandler db addr sig fills byp newId bf ts).2 = o := by
      unfold evaluateHandler
      rw [hp]
    rw [h2] at h
    cases h with
    | inl hc => exact (hshape a m).1 hc
    | inr hc => exact (hshape a m).2 hc
  | proceed w m' =>
    have hnone := evalPhase1_proceed_none db addr sig fills byp w m' hp
    have hres : evaluateHandler db addr sig fills byp newId bf ts =
        evalPhase2 db w m' addr newId bf ts := by
      unfold evaluateHandler
      rw [hp]
    set ag : Agent :=
      { id := newId, hl_address := addr, funded_wallet_address := w.address,
        initial_capital := (getBalance bf).accountValue, current_pnl := 0, agent_profit := 0,
        firm_profit := 0, status := .active, trade_count := 0, created_at := ts } with hag
    have hph2 : evalPhase2 db w m' addr newId bf ts =
        (saveAgent (assignWallet db w.address newId) ag,
         if m'.passes then .approved ag m' else .approvedBypass ag m') := rfl
    have hagent : a = ag := by
      rw [hres, hph2] at h
      by_cases hps : m'.passes
      · rw [if_pos hps] at h
        cases h with
        | inl hc => injection hc with h1 h2; exact h1.symm
        | inr hc => exact EvalOutcome.noConfusion hc
      · rw [if_neg hps] at h
        cases h with
        | inl hc => exact EvalOutcome.noConfusion hc
        | inr hc => injection hc with h1 h2; exact h1.symm
    have hdb1 : (evaluateHandler db addr sig fills byp newId bf ts).1 =
        saveAgent (assignWallet db w.address newId) ag := by
      rw [hres, hph2]
    have hfind : getAgentByHyperliquidAddress
        (saveAgent (assignWallet db w.address newId) ag) addr = some ag := by
      have := getAgentByAddr_saveAgent_self (assignWallet db w.address newId) ag
      simpa [hag] using this
    refine ⟨by rw [hdb1, hagent]; exact hfind, by rw [hagent], ?_⟩
    rw [hdb1]
    have hnoaddr : ∀ x ∈ (assignWallet db w.address newId).agents,
        (x.hl_address == addr) = false := by
      intro x hx
      have := List.find?_eq_none.mp hnone x hx
      simpa using this
    unfold saveAgent
    rw [List.filter_append]
    have hleft : ((assignWallet db w.address newId).agents.filter
        (fun x => !(x.id == ag.id) && !(x.hl_address == ag.hl_address))).filter
          (fun x => x.hl_address == addr) = [] := by
      rw [List.filter_eq_nil_iff]
      intro x hx
      have hxmem : x ∈ (assignWallet db w.address newId).agents :=
        List.mem_of_mem_filter hx
      simp [hnoaddr x hxmem]
    rw [hleft]
    simp [hag]

-- ─── Claim C3 ───────────────────────────────────────────────────────────────

/--
Claim C3: onboarding is idempotent per address.  (i) If an agent already
exists for the address the call returns it verbatim as AlreadyRegistered,
mutates nothing, and its result does not depend on the signature, fills,
bypass flag, fresh id or balance — no re-evaluation or pool mutation
happens.  (ii) A successful onboarding persists exactly one agent for the
address, and any second call for the same address returns exactly that agent
as AlreadyRegistered with the state unchanged.
-/
theorem onboarding_idempotent_per_address :
    (∀ (db : DB) (addr : String) (a : Agent) (sig : Bool) (fills : List ℚ) (byp : Bool)
        (newId : String) (bf : BalanceFetch) (ts : String),
      getAgentByHyperliquidAddress db addr = some a →
      evaluateHandler db addr sig fills byp newId bf ts = (db, .alreadyRegistered a))
    ∧ (∀ (db : DB) (addr : String) (sig : Bool) (fills : List ℚ) (byp : Bool)
        (newId : String) (bf : BalanceFetch) (ts : String) (a : Agent) (m : AnalysisResult),
      ((evaluateHandler db addr sig fills byp newId bf ts).2 = .approved a m
        ∨ (evaluateHandler db addr sig fills byp newId bf ts).2 = .approvedBypass a m) →
      getAgentByHyperliquidAddress (evaluateHandler db addr sig fills byp newId bf ts).1 addr
        = some a
      ∧ ((evaluateHandler db addr sig fills byp newId bf ts).1.agents.filter
          (fun x => x.hl_address == addr)).length = 1
      ∧ ∀ (sig' : Bool) (fills' : List ℚ) (byp' : Bool) (newId' : String)
          (bf' : BalanceFetch) (ts' : String),
          evaluateHandler (evaluateHandler db addr sig fills byp newId bf ts).1 addr sig'
            fills' byp' newId' bf' ts'
          = ((evaluateHandler db addr sig fills byp newId bf ts).1, .alreadyRegistered a)) := by
  constructor
  · intro db addr a sig fills byp newId bf ts h
    exact evaluateHandler_already db addr a sig fills byp newId bf ts h
  · intro db addr sig fills byp newId bf ts a m h
    obtain ⟨hfind, _, hone⟩ := evaluateHandler_created db addr sig fills byp newId bf ts a m h
    exact ⟨hfind, hone, fun sig' fills' byp' newId' bf' ts' =>
      evaluateHandler_already _ addr a sig' fills' byp' newId' bf' ts' hfind⟩

/--
Claim C3 witness: a second registration of `A0`'s address short-circuits,
and a fresh onboarding into `dbFree` persists exactly one agent that a
repeat call returns as AlreadyRegistered.
-/
theorem onboarding_idempotent_witness :
    evaluateHandler db0 "h1" false [] false "idX" bfFail "tX" = (db0, .alreadyRegistered A0)
    ∧ getAgentByHyperliquidAddress (evaluateHandler dbFree "h1" true [] true "idA" bfFail "t1").1
        "h1" = some createdA
    ∧ ((evaluateHandler dbFree "h1" true [] true "idA" bfFail "t1").1.agents.filter
        (fun x => x.hl_address == "h1")).length = 1
    ∧ evaluateHandler (evaluateHandler dbFree "h1" true [] true "idA" bfFail "t1").1 "h1" true
        [] true "idB" bfFail "t2"
      = ((evaluateHandler dbFree "h1" true [] true "idA" bfFail "t1").1,
         .alreadyRegistered createdA) := by
  have hexist : getAgentByHyperliquidAddress db0 "h1" = some A0 := by
    simp [getAgentByHyperliquidAddress, db0, A0, List.find?]
  have hout : (evaluateHandler dbFree "h1" true [] true "idA" bfFail "t1").2 =
      .approvedBypass createdA (analyzePnL []) := by
    norm_num [evaluateHandler, evalPhase1, evalPhase2, dbFree, getAgentByHyperliquidAddress,
      getAvailableWallet, List.find?, analyzePnL, RISK_GATES, getBalance, bfFail, createdA]
  have h2 := onboarding_idempotent_per_address.2 dbFree "h1" true [] true "idA" bfFail "t1"
    createdA (analyzePnL []) (Or.inr hout)
  exact ⟨onboarding_idempotent_per_address.1 db0 "h1" A0 false [] false "idX" bfFail "tX" hexist,
    h2.1, h2.2.1, h2.2.2 true [] true "idB" bfFail "t2"⟩

-- ─── Claim C7 ───────────────────────────────────────────────────────────────

/--
Claim C7: the profit-split update adds `closedPnl * 0.8` / `closedPnl * 0.2`
to the accrued shares and `closedPnl` to cumulative PnL when `closedPnl > 0`;
adjusts only cumulative PnL when `closedPnl < 0`; is a no-op at 0; and
applying `[100, -50, 200]` to an agent with zeroed totals accrues
`agent = 240`, `firm = 60`, `cumulative PnL = 250`.
-/
theorem profit_split_update :
    (∀ (a : Agent) (p : ℚ), 0 < p →
      (applyProfitSplit a p).1.agent_profit = a.agent_profit + p * RISK_GATES.AGENT_PROFIT_SHARE
      ∧ (applyProfitSplit a p).1.firm_profit = a.firm_profit + p * RISK_GATES.FIRM_PROFIT_SHARE
      ∧ (applyProfitSplit a p).1.current_pnl = a.current_pnl + p
      ∧ (applyProfitSplit a p).2 =
          some { closed_pnl := p, agent_share := p * RISK_GATES.AGENT_PROFIT_SHARE,
                 firm_share := p * RISK_GATES.FIRM_PROFIT_SHARE })
    ∧ (∀ (a : Agent) (p : ℚ), p < 0 →
      (applyProfitSplit a p).1.current_pnl = a.current_pnl + p
      ∧ (applyProfitSplit a p).1.agent_profit = a.agent_profit
      ∧ (applyProfitSplit a p).1.firm_profit = a.firm_profit
      ∧ (applyProfitSplit a p).2 = none)
    ∧ (∀ a : Agent, applyProfitSplit a 0 = (a, none))
    ∧ (applyFills A0 [100, -50, 200]).agent_profit = 240
    ∧ (applyFills A0 [100, -50, 200]).firm_profit = 60
    ∧ (applyFills A0 [100, -50, 200]).current_pnl = 250 := by
  refine ⟨?_, ?_, ?_, ?_, ?_, ?_⟩
  · intro a p hp
    unfold applyProfitSplit
    rw [if_pos hp]
    exact ⟨rfl, rfl, rfl, rfl⟩
  · intro a p hp
    unfold applyProfitSplit
    rw [if_neg (not_lt.mpr (le_of_lt hp)), if_pos hp]
    exact ⟨rfl, rfl, rfl, rfl⟩
  · intro a
    unfold applyProfitSplit
    rw [if_neg (lt_irrefl 0), if_neg (lt_irrefl 0)]
  · norm_num [applyFills, applyProfitSplit, A0, RISK_GATES]
  · norm_num [applyFills, applyProfitSplit, A0, RISK_GATES]
  · norm_num [applyFills, applyProfitSplit, A0, RISK_GATES]

/-- Claim C7 witness: the positive, negative and zero cases at concrete fills. -/
theorem profit_split_update_witness :
    ((applyProfitSplit A0 1).1.agent_profit = A0.agent_profit + 1 * RISK_GATES.AGENT_PROFIT_SHARE
      ∧ (applyProfitSplit A0 1).1.firm_profit = A0.firm_profit + 1 * RISK_GATES.FIRM_PROFIT_SHARE
      ∧ (applyProfitSplit A0 1).1.current_pnl = A0.current_pnl + 1
      ∧ (applyProfitSplit A0 1).2 =
          some { closed_pnl := 1, agent_share := 1 * RISK_GATES.AGENT_PROFIT_SHARE,
                 firm_share := 1 * RISK_GATES.FIRM_PROFIT_SHARE })
    ∧ ((applyProfitSplit A0 (-1)).1.current_pnl = A0.current_pnl + (-1)
      ∧ (applyProfitSplit A0 (-1)).1.agent_profit = A0.agent_profit
      ∧ (applyProfitSplit A0 (-1)).1.firm_profit = A0.firm_profit
      ∧ (applyProfitSplit A0 (-1)).2 = none)
    ∧ applyProfitSplit A0 0 = (A0, none) :=
  ⟨profit_split_update.1 A0 1 (by norm_num),
   profit_split_update.2.1 A0 (-1) (by norm_num),
   profit_split_update.2.2.1 A0⟩

-- ─── Claim C8 ───────────────────────────────────────────────────────────────

/--
Claim C8: a `Rejected` onboarding (risk gate failed, bypass unset) returns
the full `EvaluationResult` and leaves the database — agents and wallet
assignments — completely unchanged; a `NoCapacity` onboarding (no free
wallet) likewise creates no agent and mutates nothing, so a retry is not
blocked by a half-created record.
-/
theorem onboarding_failure_pure :
    (∀ (db : DB) (addr : String) (fills : List ℚ) (newId : String) (bf : BalanceFetch)
        (ts : String),
      getAgentByHyperliquidAddress db addr = none →
      (analyzePnL fills).passes = false →
      evaluateHandler db addr true fills false newId bf ts = (db, .rejected (analyzePnL fills)))
    ∧ (∀ (db : DB) (addr : String) (sig : Bool) (fills : List ℚ) (byp : Bool)
        (newId : String) (bf : BalanceFetch) (ts : String),
      getAgentByHyperliquidAddress db addr = none →
      sig = true →
      ((analyzePnL fills).passes = true ∨ byp = true) →
      getAvailableWallet db = none →
      evaluateHandler db addr sig fills byp newId bf ts = (db, .noCapacity)) := by
  constructor
  · intro db addr fills newId bf ts hnone hfail
    simp only [evaluateHandler, evalPhase1, hnone]
    rw [if_neg (by simp), if_pos (by simp [hfail])]
  · intro db addr sig fills byp newId bf ts hnone hsig hpass hw
    subst hsig
    simp only [evaluateHandler, evalPhase1, hnone]
    rw [if_neg (by simp), if_neg ?_, hw]
    cases hpass with
    | inl hp => simp [hp]
    | inr hb => simp [hb]

/-- Claim C8 witness: an empty fill history is rejected without bypass and
leaves `dbFree` untouched; with bypass set but no wallet, `dbEmpty` gets
`NoCapacity` and stays empty. -/
theorem onboarding_failure_pure_witness :
    evaluateHandler dbFree "h1" true [] false "idA" bfFail "t1"
      = (dbFree, .rejected (analyzePnL []))
    ∧ evaluateHandler dbEmpty "h1" true [] true "idA" bfFail "t1" = (dbEmpty, .noCapacity) := by
  refine ⟨onboarding_failure_pure.1 dbFree "h1" [] "idA" bfFail "t1" ?_ ?_,
    onboarding_failure_pure.2 dbEmpty "h1" true [] true "idA" bfFail "t1" ?_ rfl (Or.inr rfl) ?_⟩
  · simp [getAgentByHyperliquidAddress, dbFree]
  · simp [analyzePnL, RISK_GATES]
  · simp [getAgentByHyperliquidAddress, dbEmpty]
  · simp [getAvailableWallet, dbEmpty]

-- ─── Claim C9 ───────────────────────────────────────────────────────────────

/--
Claim C9 evaluated at its failing interleaving: wallet acquisition is NOT
exclusive.  `getAvailableWallet` (the SELECT) and `assignWallet` (the
UPDATE) are separated by the `await getBalance` on server.ts line 198, so
two onboarding requests for different addresses can both run phase 1 before
either runs phase 2.  Both phase-1 spans select the same free wallet `w1`,
and after both phase-2 spans commit, two persisted agents reference the same
funded wallet — violating "each funded wallet is assigned to at most one
Agent".  (The schedule phase1-A, phase1-B, phase2-A, phase2-B is realizable
on the Node event loop because each phase is one synchronous span.)
-/
theorem wallet_double_assignment_interleaving :
    evalPhase1 dbFree "h1" true [] true
      = .proceed { address := "w1", assigned_to := none } (analyzePnL [])
    ∧ evalPhase1 dbFree "h2" true [] true
      = .proceed { address := "w1", assigned_to := none } (analyzePnL [])
    ∧ ((evalPhase2 (evalPhase2 dbFree { address := "w1", assigned_to := none } (analyzePnL [])
          "h1" "idA" bfFail "t1").1 { address := "w1", assigned_to := none } (analyzePnL [])
          "h2" "idB" bfFail "t2").1.agents.map (fun x => x.funded_wallet_address))
        = ["w1", "w1"]
    ∧ ((evalPhase2 (evalPhase2 dbFree { address := "w1", assigned_to := none } (analyzePnL [])
          "h1" "idA" bfFail "t1").1 { address := "w1", assigned_to := none } (analyzePnL [])
          "h2" "idB" bfFail "t2").1.agents.map (fun x => x.id)) = ["idA", "idB"] := by
  refine ⟨?_, ?_, ?_, ?_⟩ <;>
    norm_num [evalPhase1, evalPhase2, dbFree, getAgentByHyperliquidAddress, getAvailableWallet,
      assignWallet, saveAgent, List.find?, List.filter, analyzePnL, RISK_GATES, getBalance,
      bfFail] <;>
    decide

-- ─── Claim C10 ──────────────────────────────────────────────────────────────

/--
Claim C10 (implicit): the persistence round-trip through the `agents` table
keeps only the eight schema columns.  Two agents differing only in
`initial_capital` and `created_at` store to identical rows, so `getAgent`'s
result carries no drawdown baseline; the eight stored fields (with
`hl_address` saved as `hyperliquid_address`) round-trip unchanged.
-/
theorem agent_row_roundtrip_drops_baseline :
    (∀ (a : Agent) (c : ℚ) (t : String),
      agentToRow { a with initial_capital := c, created_at := t } = agentToRow a)
    ∧ (∀ (table : List AgentRow) (a : Agent),
      rowGetAgent (rowSaveAgent table a) a.id = some (agentToRow a))
    ∧ (∀ a : Agent,
      (agentToRow a).id = a.id
      ∧ (agentToRow a).hyperliquid_address = a.hl_address
      ∧ (agentToRow a).funded_wallet_address = a.funded_wallet_address
      ∧ (agentToRow a).current_pnl = a.current_pnl
      ∧ (agentToRow a).firm_profit = a.firm_profit
      ∧ (agentToRow a).agent_profit = a.agent_profit
      ∧ (agentToRow a).trade_count = a.trade_count
      ∧ (agentToRow a).status = a.status) := by
  refine ⟨fun a c t => rfl, ?_, fun a => ⟨rfl, rfl, rfl, rfl, rfl, rfl, rfl, rfl⟩⟩
  intro table a
  apply find?_filter_append_self
  · simp [agentToRow]
  · intro x hx
    simp only [Bool.and_eq_true, Bool.not_eq_true'] at hx
    simpa using hx.1
